import Mathlib

/-!
Verification development for the RPi-AWS-Video-Stick kiosk media player.
The definitions below are a shallow embedding of the Python sources
(`src/standalone_video_image/main.py` and `src/main.py`): pure helpers are
translated to Lean functions, the filesystem and the S3 store become explicit
state values, and the effectful main loop becomes a step function over a
controller state that also emits a trace of process actions.
-/

namespace VideoStick

/-- Media kind, the value set of `get_media_type` ("video" / "image"). -/
inductive MType where
  | video
  | image
deriving DecidableEq, BEq

/-- Embeds Python `str.lower()` as a character-wise map over the string's
character sequence. -/
def strLower (s : String) : String := ⟨s.data.map Char.toLower⟩

/-- Embeds Python `str.endswith(t)`: `t`'s character sequence is a suffix of
`s`'s. -/
def strEndsWith (s t : String) : Bool := List.isSuffixOf t.data s.data

/-- Embeds `is_video_file` (standalone main.py line 46): case-insensitive
suffix check against the four video extensions. -/
def is_video_file (filename : String) : Bool :=
  strEndsWith (strLower filename) ".mp4" || strEndsWith (strLower filename) ".mkv" ||
  strEndsWith (strLower filename) ".avi" || strEndsWith (strLower filename) ".mov"

/-- Embeds `is_image_file` (standalone main.py line 50): case-insensitive
suffix check against the five image extensions. -/
def is_image_file (filename : String) : Bool :=
  strEndsWith (strLower filename) ".jpg" || strEndsWith (strLower filename) ".jpeg" ||
  strEndsWith (strLower filename) ".png" || strEndsWith (strLower filename) ".gif" ||
  strEndsWith (strLower filename) ".bmp"

/-- Embeds `get_media_type` (line 62): video wins over image, otherwise None. -/
def get_media_type (file_path : String) : Option MType :=
  if is_video_file file_path then some MType.video
  else if is_image_file file_path then some MType.image
  else none

/-- Embeds `find_media_files` (line 54).  `os.listdir` of the flat media
directory is modelled as the list of entry names `listing`; the function keeps
exactly the media-extension entries and joins them with the directory prefix
(`LOCAL_MEDIA_DIR` ends in "/", so `os.path.join` is string append). -/
def find_media_files (dir : String) (listing : List String) : List String :=
  (listing.filter (fun file => is_video_file file || is_image_file file)).map
    (fun file => dir ++ file)

/-- Embeds the `os.makedirs(LOCAL_MEDIA_DIR, exist_ok=True)` at module scope
(line 38): a missing media directory (`none`) is created empty, an existing
one is left as is. -/
def ensure_media_dir (d : Option (List String)) : List String := d.getD []

/-- Embeds `os.path.basename`: the part of the path after the last slash. -/
def basename (s : String) : String :=
  ⟨((s.data.reverse.takeWhile (fun c => c ≠ '/')).reverse)⟩

/-- Embeds `os.path.splitext` for basenames: split at the last dot, except
that a run of leading dots never starts an extension (".bashrc" has none). -/
def splitext (s : String) : String × String :=
  let cs := s.data
  let dots := (List.range cs.length).filter (fun i => cs.getD i ' ' == '.')
  match dots.getLast? with
  | none => (s, "")
  | some i =>
      if (List.range i).all (fun j => cs.getD j ' ' == '.') then (s, "")
      else (⟨cs.take i⟩, ⟨cs.drop i⟩)

/-- Local filesystem: a list of (path, size-in-bytes) pairs. -/
structure FS where
  files : List (String × Nat)
deriving DecidableEq

/-- Embeds `os.path.exists`. -/
def FS.existsF (fs : FS) (p : String) : Bool :=
  fs.files.any (fun e => e.1 == p)

/-- Embeds `os.path.getsize` (only queried on existing paths). -/
def FS.getsize (fs : FS) (p : String) : Option Nat :=
  (fs.files.find? (fun e => e.1 == p)).map (fun e => e.2)

/-- Writing a file: overwrites any entry at the same path. -/
def FS.write (fs : FS) (p : String) (s : Nat) : FS :=
  ⟨(p, s) :: fs.files.filter (fun e => e.1 != p)⟩

/-- Embeds `os.remove`. -/
def FS.remove (fs : FS) (p : String) : FS :=
  ⟨fs.files.filter (fun e => e.1 != p)⟩

/-- Python truthiness of an optional integer: `None` and `0` are falsy.  Used
for `if expected_size and ...` and `if duration:`. -/
def truthy : Option Nat → Bool
  | none => false
  | some n => n != 0

/-- Embeds `verify_file_integrity` (line 124): existence check, then a size
comparison that is skipped when `expected_size` is `None` **or `0`** (Python
`if expected_size and ...`). -/
def verify_file_integrity (fs : FS) (file_path : String) (expected_size : Option Nat) : Bool :=
  if !fs.existsF file_path then false
  else if truthy expected_size && (fs.getsize file_path != expected_size) then false
  else true

/-- Outcome of one `s3.download_file` transfer attempt (including the
SIGALRM timeout path): either the transfer completes and the destination file
has the given size, or an exception is raised.  `notFound` is whether the
exception message contains "404"; `leftover` is the size of a partial file
the failed transfer left at the destination, if any. -/
inductive AttemptOutcome where
  | ok (size : Nat)
  | err (notFound : Bool) (leftover : Option Nat)
deriving DecidableEq

/-- The remote object as the downloader observes it: the `head_object`
ContentLength (`none` = the head call raised), and the outcome of each
successive transfer attempt. -/
structure S3Remote where
  headSize : Option Nat
  outcome : Nat → AttemptOutcome

/-- Events recorded while `download_file` runs: transfer attempts and
`time.sleep` backoffs. -/
inductive DEv where
  | attempt (idx : Nat)
  | sleep (secs : Nat)
deriving DecidableEq

/-- Candidate destination path for collision counter `c` (line 177-182):
counter 0 is the plain join, counter `c ≥ 1` inserts `_c` before the
extension of the basename. -/
def candidate (dir base : String) (c : Nat) : String :=
  if c = 0 then dir ++ base
  else
    let pr := splitext base
    dir ++ pr.1 ++ "_" ++ Nat.repr c ++ pr.2

/-- Embeds the `while os.path.exists(local_path)` collision loop: try
counters upward until a free candidate; `fuel` bounds the search (the Python
loop terminates because the directory is finite). -/
def destSearch (fs : FS) (dir base : String) : Nat → Nat → String
  | 0, c => candidate dir base c
  | fuel + 1, c =>
      if fs.existsF (candidate dir base c) then destSearch fs dir base fuel (c + 1)
      else candidate dir base c

/-- The collision-free destination path `download_file` writes to. -/
def download_dest (fs : FS) (dir base : String) : String :=
  destSearch fs dir base (fs.files.length + 1) 0

/-- Embeds the `for attempt in range(retry_count)` body of `download_file`
(lines 192-227).  Each attempt: transfer (or exception), integrity
verification, deletion of the bad/partial file, `break` on a "404" error,
otherwise a 2 second `time.sleep` before the next attempt (the sleep also
runs after the final failed attempt, as in the source). -/
def download_loop (remote : S3Remote) (expected : Nat) (path : String) :
    Nat → Nat → FS → Option String × FS × List DEv
  | 0, _, fs => (none, fs, [])
  | fuel + 1, idx, fs =>
      match remote.outcome idx with
      | AttemptOutcome.ok s =>
          let fs1 := fs.write path s
          if verify_file_integrity fs1 path (some expected) then
            (some path, fs1, [DEv.attempt idx])
          else
            let fs2 := if fs1.existsF path then fs1.remove path else fs1
            let r := download_loop remote expected path fuel (idx + 1) fs2
            (r.1, r.2.1, DEv.attempt idx :: DEv.sleep 2 :: r.2.2)
      | AttemptOutcome.err nf leftover =>
          let fs1 := match leftover with
            | some s => fs.write path s
            | none => fs
          let fs2 := if fs1.existsF path then fs1.remove path else fs1
          if nf then (none, fs2, [DEv.attempt idx])
          else
            let r := download_loop remote expected path fuel (idx + 1) fs2
            (r.1, r.2.1, DEv.attempt idx :: DEv.sleep 2 :: r.2.2)

/-- Embeds `download_file` (line 172): compute the collision-free destination,
query the expected size via `head_object` (failure returns `None` with no
transfer attempt), then run the bounded retry loop. -/
def download_file (remote : S3Remote) (fs : FS) (dir base : String) (retry_count : Nat) :
    Option String × FS × List DEv :=
  match remote.headSize with
  | none => (none, fs, [])
  | some expected =>
      download_loop remote expected (download_dest fs dir base) retry_count 0 fs

/-- Classification of one attempt outcome by what the loop body does with it:
succeed (integrity check passes), abort (a "404" error breaks the loop), or
retry. -/
inductive AClass where
  | succeed
  | abort
  | retry
deriving DecidableEq

/-- Which of the three loop-exit behaviours an attempt outcome produces, given
the advertised size `expected`.  A completed transfer fails verification
exactly when `expected ≠ 0` and the written size differs. -/
def attemptClass (expected : Nat) : AttemptOutcome → AClass
  | AttemptOutcome.ok s =>
      if expected ≠ 0 ∧ s ≠ expected then AClass.retry else AClass.succeed
  | AttemptOutcome.err nf _ => if nf then AClass.abort else AClass.retry

/-- The event trace of a run of `k` attempts starting at index `s`, with a
fixed 2 second sleep between consecutive attempts; `b` records whether a
trailing sleep follows the last attempt (it does when the last attempt
retried into exhausted fuel). -/
def runTrace : Nat → Nat → Bool → List DEv
  | _, 0, _ => []
  | s, 1, b => DEv.attempt s :: (if b then [DEv.sleep 2] else [])
  | s, k + 2, b => DEv.attempt s :: DEv.sleep 2 :: runTrace (s + 1) (k + 1) b

/-- Number of transfer attempts recorded in a trace. -/
def countAttempts (l : List DEv) : Nat :=
  (l.filter (fun ev => match ev with | DEv.attempt _ => true | _ => false)).length

/-! ### S3 archival (`move_to_backup`, standalone main.py line 254 and
src/main.py line 93) -/

/-- The remote store as a list of currently present keys. -/
abbrev S3Keys := List String

/-- Key presence in the store. -/
def s3Has (s : S3Keys) (k : String) : Bool := s.any (fun x => x == k)

/-- The two remote operations `move_to_backup` performs. -/
inductive S3Op where
  | copyKey (src dst : String)
  | deleteKey (k : String)
deriving DecidableEq

/-- Run a sequence of store operations.  `copy_object` of a missing source
key raises, which in `move_to_backup` jumps to the `except` handler and skips
everything after it, so the run stops there; `delete_object` never raises. -/
def runS3 : S3Keys → List S3Op → S3Keys
  | s, [] => s
  | s, S3Op.copyKey src dst :: rest =>
      if s3Has s src then runS3 (s ++ [dst]) rest else s
  | s, S3Op.deleteKey k :: rest => runS3 (s.filter (fun x => x != k)) rest

/-- The timestamped backup key `move_to_backup` builds (line 256-259):
`f"{base_dir}/backups/{timestamp}_{os.path.basename(s3_key)}"`. -/
def backup_key (base_dir ts s3_key : String) : String :=
  base_dir ++ "/backups/" ++ (ts ++ "_" ++ basename s3_key)

/-- The operation sequence of `move_to_backup` (lines 260-261): copy to the
backup key first, delete the live key second. -/
def move_to_backup_ops (base_dir ts s3_key : String) : List S3Op :=
  [S3Op.copyKey s3_key (backup_key base_dir ts s3_key), S3Op.deleteKey s3_key]

/-! ### Playlist data (`create_default_playlist`, the manifest resolution
block of `main`, and `clean_old_media`) -/

/-- One element of `current_media_files`: the dicts built at lines 247-251
and 317-322 with keys "path", "type", "s3_key". -/
structure MediaFileR where
  path : String
  mtype : Option MType
  s3_key : Option String
deriving DecidableEq

/-- One entry of the remote `playlist.json` manifest: keys "filename",
"type", "duration".  `mduration = none` models an absent "duration" key,
`some none` a JSON null, `some (some n)` the integer `n`. -/
structure MItem where
  filename : String
  mkind : Option MType
  mduration : Option (Option Nat)
deriving DecidableEq

/-- One element of `current_playlist` as the playback loop reads it: keys
"path", "type", "order", "duration" (the same absent / null / value encoding
as `MItem`). -/
structure PItem where
  path : Option String
  ptype : Option MType
  order : Option Nat
  duration : Option (Option Nat)
deriving DecidableEq

/-- Placeholder for an out-of-range list access (`current_playlist[i]`);
unreachable in the reachable states of the loop. -/
def dummyItem : PItem :=
  { path := none, ptype := none, order := none, duration := none }

/-- Embeds `current_item.get("duration", 10)` (line 347): the default 10
applies only when the key is absent; a stored null comes back as `none`. -/
def getDuration (it : PItem) : Option Nat :=
  match it.duration with
  | none => some 10
  | some v => v

/-- Embeds `create_default_playlist` (line 280): enumerate the media files,
give image entries the default 10 second duration and video entries a null
one, then sort by the "order" key (a stable sort on the already-ordered
enumeration). -/
def create_default_playlist (files : List MediaFileR) : List PItem :=
  let pl : List PItem := files.enum.map (fun pr =>
    { path := some pr.2.path, ptype := pr.2.mtype, order := some pr.1,
      duration := some (if pr.2.mtype == some MType.image then some 10 else none) })
  pl.mergeSort (fun a b => a.order.getD 0 ≤ b.order.getD 0)

/-- Embeds the dict comprehension at line 397:
`{os.path.basename(item["path"]): item["path"] for item in current_media_files}`. -/
def build_file_map (files : List MediaFileR) : List (String × String) :=
  files.map (fun f => (basename f.path, f.path))

/-- Dict lookup where a later insertion overwrites an earlier one with the
same key, as in the comprehension above. -/
def lookupLast (m : List (String × String)) (k : String) : Option String :=
  (m.reverse.find? (fun e => e.1 == k)).map (fun e => e.2)

/-- Embeds `os.path.exists` against the flat media directory, whose contents
are modelled as the list `disk` of entry names. -/
def pathExistsDisk (dir : String) (disk : List String) (p : String) : Bool :=
  disk.any (fun n => dir ++ n == p)

/-- Embeds the manifest resolution block of `main` (lines 396-405): for each
manifest entry, look its basename up in the map of downloaded paths; on a hit
set the entry's "path" and re-derive its "type" from that local path; then
keep exactly the entries that obtained a "path" that exists on disk, in
manifest order.  Wire-format manifest entries carry no "path" key, so
unmatched entries are dropped by the filter. -/
def apply_manifest (dir : String) (disk : List String) (loaded : List MItem)
    (files : List MediaFileR) : List PItem :=
  let fmap := build_file_map files
  (loaded.map (fun it =>
    match lookupLast fmap (basename it.filename) with
    | some p =>
        ({ path := some p, ptype := get_media_type p, order := none,
           duration := it.mduration } : PItem)
    | none =>
        { path := none, ptype := it.mkind, order := none,
          duration := it.mduration })).filter
    (fun it => match it.path with
      | some p => pathExistsDisk dir disk p
      | none => false)

/-- Embeds `clean_old_media` (line 295): walk the media directory, delete
every media-extension entry whose joined path is not among the current media
file paths; a failed `os.remove` (oracle `removeFails`) is logged and the
file stays. -/
def clean_old_media (dir : String) (removeFails : String → Bool)
    (disk : List String) (current : List MediaFileR) : List String :=
  let current_paths := current.map (fun f => f.path)
  disk.filter (fun file =>
    let file_path := dir ++ file
    if !(current_paths.contains file_path) &&
        (is_video_file file || is_image_file file) then removeFails file_path
    else true)

/-! ### The playback controller main loop (standalone main.py lines 308-439)

One pass of `while True` is split into the four phases of the source body:
A — start playback when idle (lines 337-356), B — the timed S3 check and
playlist swap (lines 359-415), C — the video liveness poll (lines 418-423),
D — recreate a default playlist when none is active (lines 426-428).  Each
phase emits the subprocess-level actions it performs, so that liveness of
rendering processes can be read off the trace. -/

/-- Subprocess-level actions of the controller.  `startImage` records the
effective display mode: `some d` for `--image-duration d` slideshow mode,
`none` for the indefinite fullscreen display. -/
inductive PAct where
  | startVideo (pid : Nat) (path : String)
  | startImage (pid : Nat) (path : String) (dur : Option Nat)
  | sleepFor (secs : Nat)
  | terminateP (pid : Nat)
  | waitOk (pid : Nat)
  | waitTimeout (pid : Nat)
  | killP (pid : Nat)
  | diedP (pid : Nat)
deriving DecidableEq

/-- Embeds `stop_playback` (line 99): nothing for a `None` handle; otherwise
terminate, wait up to 5 seconds, and force-kill when the wait times out
(which of the two happens is the environment's choice `graceful`). -/
def stopSeq (graceful : Bool) : Option Nat → List PAct
  | none => []
  | some p =>
      if graceful then [PAct.terminateP p, PAct.waitOk p]
      else [PAct.terminateP p, PAct.waitTimeout p, PAct.killP p]

/-- Environment input for one loop pass: whether the timed S3 check fires,
the outcome of the playlist fetch (parsed manifest on success), the media
files `download_all_media` brought in, how each `stop_playback` wait ends,
whether a polled video process is still running, and the `os.remove` failure
oracle for the sweep. -/
structure LoopEnv where
  checkNow : Bool
  playlistFetched : Option (List MItem)
  newMedia : List MediaFileR
  gracefulA : Bool
  gracefulB : Bool
  videoStillRunning : Bool
  removeFails : String → Bool

/-- Mutable state of `main`: the media directory contents (entry names), the
locally persisted `playlist.json` content, and the loop variables
`current_playlist`, `current_media_files`, `current_index`,
`current_process`; `nextPid` supplies fresh process ids. -/
structure CtrlState where
  disk : List String
  playlistFile : Option (List MItem)
  current_playlist : Option (List PItem)
  current_media_files : List MediaFileR
  current_index : Nat
  current_process : Option Nat
  nextPid : Nat

/-- Phase A (lines 337-356): when no process is running and a non-empty
playlist exists, start the current item.  Videos start looping; a
single-item image displays indefinitely; an image in a longer playlist
starts in slideshow mode, the loop sleeps for its duration, stops it and
advances the cursor.  `time.sleep(None)` — an image entry whose "duration"
key holds null — raises and aborts the loop (result `none`). -/
def phaseA (env : LoopEnv) (st : CtrlState) : Option CtrlState × List PAct :=
  match st.current_process with
  | some _ => (some st, [])
  | none =>
      match st.current_playlist with
      | none => (some st, [])
      | some pl =>
          if pl.length = 0 then (some st, [])
          else
            let item := pl.getD st.current_index dummyItem
            match item.ptype with
            | some MType.video =>
                let pid := st.nextPid
                (some { st with current_process := some pid, nextPid := pid + 1 },
                 [PAct.startVideo pid (item.path.getD "")])
            | some MType.image =>
                if pl.length = 1 then
                  let pid := st.nextPid
                  (some { st with current_process := some pid, nextPid := pid + 1 },
                   [PAct.startImage pid (item.path.getD "") none])
                else
                  let dur := getDuration item
                  let pid := st.nextPid
                  let mode := if truthy dur then dur else none
                  match dur with
                  | none => (none, [PAct.startImage pid (item.path.getD "") mode])
                  | some d =>
                      (some { st with
                                current_process := none
                                nextPid := pid + 1
                                current_index := (st.current_index + 1) % pl.length },
                       PAct.startImage pid (item.path.getD "") mode ::
                         PAct.sleepFor d :: stopSeq env.gracefulA (some pid))
            | none => (some st, [])

/-- Phase B (lines 359-415): on a timed check, record a fetched playlist
file and freshly downloaded media (downloads also land on disk), and when
either happened stop current playback, rebuild `current_playlist` from the
local playlist file (or a default one), sweep old media keyed on
`current_media_files`, and reset the cursor. -/
def phaseB (dir : String) (env : LoopEnv) (st : CtrlState) : CtrlState × List PAct :=
  if !env.checkNow then (st, []) else
  let st1 := match env.playlistFetched with
    | some m => { st with playlistFile := some m }
    | none => st
  let upP := env.playlistFetched.isSome
  let st2 :=
    if env.newMedia.length ≠ 0 then
      { st1 with
          disk := st1.disk ++ env.newMedia.map (fun f => basename f.path)
          current_media_files := env.newMedia }
    else st1
  let upM := env.newMedia.length ≠ 0
  if upP ∨ upM then
    let acts := stopSeq env.gracefulB st2.current_process
    let st3 := { st2 with current_process := none }
    let newPl := match st3.playlistFile with
      | some l =>
          if l.length ≠ 0 then apply_manifest dir st3.disk l st3.current_media_files
          else create_default_playlist st3.current_media_files
      | none => create_default_playlist st3.current_media_files
    ({ st3 with
         current_playlist := some newPl
         disk := clean_old_media dir env.removeFails st3.disk st3.current_media_files
         current_index := 0 }, acts)
  else (st2, [])

/-- Phase C (lines 418-423): while a video is the current item, poll the
process; when it exited, clear the handle and advance the cursor. -/
def phaseC (env : LoopEnv) (st : CtrlState) : CtrlState × List PAct :=
  match st.current_process, st.current_playlist with
  | some p, some pl =>
      if pl.length ≠ 0 ∧ (pl.getD st.current_index dummyItem).ptype = some MType.video then
        if env.videoStillRunning then (st, [])
        else ({ st with
                  current_process := none
                  current_index := (st.current_index + 1) % pl.length }, [PAct.diedP p])
      else (st, [])
  | _, _ => (st, [])

/-- Phase D (lines 426-428): with no (or an empty) playlist but media files
at hand, recreate the default playlist. -/
def phaseD (st : CtrlState) : CtrlState :=
  if (st.current_playlist.getD []).length = 0 ∧ st.current_media_files.length ≠ 0 then
    { st with
        current_playlist := some (create_default_playlist st.current_media_files)
        current_index := 0 }
  else st

/-- One pass of the `while True` body: phases A-D in source order; a crash in
phase A aborts the pass (and the loop). -/
def iterate (dir : String) (env : LoopEnv) (st : CtrlState) :
    Option CtrlState × List PAct :=
  match phaseA env st with
  | (none, acts) => (none, acts)
  | (some st1, actsA) =>
      let rb := phaseB dir env st1
      let rc := phaseC env rb.1
      (some (phaseD rc.1), actsA ++ rb.2 ++ rc.2)

/-- Run the main loop over a list of per-pass environments, concatenating the
emitted action traces; a crash ends the run. -/
def runLoop (dir : String) : List LoopEnv → CtrlState → Option CtrlState × List PAct
  | [], st => (some st, [])
  | e :: es, st =>
      match iterate dir e st with
      | (none, acts) => (none, acts)
      | (some st1, acts) =>
          let r := runLoop dir es st1
          (r.1, acts ++ r.2)

/-! ### Liveness accounting over controller traces -/

/-- The set (as a list) of live renderer pids after one action: starts add a
pid; a successful wait, a kill, or an observed exit remove it. -/
def actLive (live : List Nat) : PAct → List Nat
  | PAct.startVideo p _ => live ++ [p]
  | PAct.startImage p _ _ => live ++ [p]
  | PAct.waitOk p => live.filter (fun q => q != p)
  | PAct.killP p => live.filter (fun q => q != p)
  | PAct.diedP p => live.filter (fun q => q != p)
  | _ => live

/-- Live pids after a whole action sequence, starting from `live`. -/
def liveSteps (live : List Nat) (acts : List PAct) : List Nat :=
  acts.foldl actLive live

/-- Every instant of the action sequence — including the start — has at most
one live renderer. -/
def OkFrom (live : List Nat) (acts : List PAct) : Prop :=
  ∀ n, (liveSteps live (acts.take n)).length ≤ 1

/-- The list of live pids a controller-state process slot accounts for. -/
def procList : Option Nat → List Nat
  | none => []
  | some p => [p]

/-! ## Theorems -/

/-! ### Filesystem helper lemmas -/

theorem existsF_write (fs : FS) (p : String) (s : Nat) : (fs.write p s).existsF p = true := by
  simp [FS.write, FS.existsF]

theorem getsize_write (fs : FS) (p : String) (s : Nat) :
    (fs.write p s).getsize p = some s := by
  simp [FS.write, FS.getsize, List.find?]

theorem existsF_remove (fs : FS) (p : String) : (fs.remove p).existsF p = false := by
  simp [FS.remove, FS.existsF, List.any_eq_true, List.mem_filter]

theorem verify_zero_eq_existsF (fs : FS) (p : String) :
    verify_file_integrity fs p (some 0) = fs.existsF p := by
  by_cases h : fs.existsF p = true
  · simp [verify_file_integrity, h, truthy]
  · simp only [Bool.not_eq_true] at h
    simp [verify_file_integrity, h]

theorem verify_write_some (fs : FS) (p : String) (s e : Nat) :
    verify_file_integrity (fs.write p s) p (some e) =
      !(decide (e ≠ 0) && decide (s ≠ e)) := by
  have h1 := existsF_write fs p s
  have h2 := getsize_write fs p s
  simp [verify_file_integrity, h1, h2, truthy, bne]

/-! ### Claim C8 — local media inventory -/

/-- Claim C8: `find_media_files` scans the (single-level) media directory
listing and returns exactly the entries whose lowercased name ends with one
of the four video or five image extensions, joined onto the directory
prefix; `get_media_type` classifies a matching name as video or image
accordingly and anything else as no media; an empty listing, or a missing
directory made empty by `os.makedirs`, yields the empty list. -/
theorem claim_C8_inventory (dir : String) (listing : List String) :
    (∀ p, p ∈ find_media_files dir listing ↔
      ∃ f, f ∈ listing ∧ p = dir ++ f ∧
        ((strEndsWith (strLower f) ".mp4" ∨ strEndsWith (strLower f) ".mkv" ∨
          strEndsWith (strLower f) ".avi" ∨ strEndsWith (strLower f) ".mov") ∨
         (strEndsWith (strLower f) ".jpg" ∨ strEndsWith (strLower f) ".jpeg" ∨
          strEndsWith (strLower f) ".png" ∨ strEndsWith (strLower f) ".gif" ∨
          strEndsWith (strLower f) ".bmp"))) ∧
    (∀ f : String,
      (get_media_type f = some MType.video ↔
        (strEndsWith (strLower f) ".mp4" ∨ strEndsWith (strLower f) ".mkv" ∨
         strEndsWith (strLower f) ".avi" ∨ strEndsWith (strLower f) ".mov")) ∧
      (get_media_type f = some MType.image ↔
        ((strEndsWith (strLower f) ".jpg" ∨ strEndsWith (strLower f) ".jpeg" ∨
          strEndsWith (strLower f) ".png" ∨ strEndsWith (strLower f) ".gif" ∨
          strEndsWith (strLower f) ".bmp") ∧
         ¬(strEndsWith (strLower f) ".mp4" ∨ strEndsWith (strLower f) ".mkv" ∨
           strEndsWith (strLower f) ".avi" ∨ strEndsWith (strLower f) ".mov")))) ∧
    find_media_files dir [] = [] ∧
    find_media_files dir (ensure_media_dir none) = [] := by
  refine ⟨?_, ?_, rfl, rfl⟩
  · intro p
    simp only [find_media_files, List.mem_map, List.mem_filter]
    constructor
    · rintro ⟨f, ⟨hf, hmedia⟩, rfl⟩
      refine ⟨f, hf, rfl, ?_⟩
      simpa [is_video_file, is_image_file, or_assoc] using hmedia
    · rintro ⟨f, hf, rfl, hext⟩
      refine ⟨f, ⟨hf, ?_⟩, rfl⟩
      simpa [is_video_file, is_image_file, or_assoc] using hext
  · intro f
    constructor
    · simp only [get_media_type]
      by_cases hv : is_video_file f = true
      · simp [hv]
        simpa [is_video_file, or_assoc] using hv
      · simp only [Bool.not_eq_true] at hv
        constructor
        · intro h
          by_cases hi : is_image_file f = true <;> simp [hv, hi] at h
        · intro h
          exfalso
          have : is_video_file f = true := by
            simpa [is_video_file, or_assoc] using h
          simp [hv] at this
    · simp only [get_media_type]
      by_cases hv : is_video_file f = true
      · constructor
        · intro h; simp [hv] at h
        · rintro ⟨-, hnv⟩
          exact absurd (by simpa [is_video_file, or_assoc] using hv) hnv
      · simp only [Bool.not_eq_true] at hv
        by_cases hi : is_image_file f = true
        · simp only [hv, hi, if_false, if_true, Bool.false_eq_true]
          constructor
          · intro _
            refine ⟨by simpa [is_image_file, or_assoc] using hi, fun h => ?_⟩
            have : is_video_file f = true := by
              simpa [is_video_file, or_assoc] using h
            simp [hv] at this
          · intro _; trivial
        · simp only [Bool.not_eq_true] at hi
          simp only [hv, hi, if_false, Bool.false_eq_true]
          constructor
          · intro h; exact absurd h (by simp)
          · rintro ⟨h, -⟩
            exact absurd (show is_image_file f = true by
              simpa [is_image_file, or_assoc] using h) (by simp [hi])

/-! ### Claim C9 — advertised size 0 disables the size comparison -/

/-- Claim C9: with an advertised (head) size of 0, `verify_file_integrity`
degenerates to a bare existence check (Python `if expected_size and ...` is
false for 0), so a download whose transfer completes with any byte count is
accepted as a success. -/
theorem claim_C9_zero_size_skip (fs : FS) (p : String) (remote : S3Remote)
    (fs0 : FS) (dir base : String) (s : Nat)
    (hhead : remote.headSize = some 0) (hout : remote.outcome 0 = AttemptOutcome.ok s) :
    verify_file_integrity fs p (some 0) = fs.existsF p ∧
    (download_file remote fs0 dir base 3).1 = some (download_dest fs0 dir base) ∧
    (download_file remote fs0 dir base 3).2.1.getsize (download_dest fs0 dir base) =
      some s := by
  refine ⟨verify_zero_eq_existsF fs p, ?_, ?_⟩ <;>
  · simp only [download_file, hhead, download_loop, hout]
    rw [verify_write_some]
    simp [getsize_write]

/-- Witness for claim C9 at a concrete remote whose head advertises 0 bytes
while the transfer writes 5 bytes. -/
theorem claim_C9_zero_size_skip_witness :
    verify_file_integrity ⟨[]⟩ "/m/a.jpg" (some 0) = FS.existsF ⟨[]⟩ "/m/a.jpg" ∧
    (download_file ⟨some 0, fun _ => AttemptOutcome.ok 5⟩ ⟨[]⟩ "/m/" "a.jpg" 3).1 =
      some (download_dest ⟨[]⟩ "/m/" "a.jpg") ∧
    (download_file ⟨some 0, fun _ => AttemptOutcome.ok 5⟩ ⟨[]⟩ "/m/" "a.jpg" 3).2.1.getsize
      (download_dest ⟨[]⟩ "/m/" "a.jpg") = some 5 :=
  claim_C9_zero_size_skip ⟨[]⟩ "/m/a.jpg" ⟨some 0, fun _ => AttemptOutcome.ok 5⟩
    ⟨[]⟩ "/m/" "a.jpg" 5 rfl rfl

/-! ### Claim C4 — copy-then-delete archival -/

theorem basename_no_slash (s : String) : ∀ c ∈ (basename s).data, c ≠ '/' := by
  intro c hc
  simp only [basename, List.mem_reverse] at hc
  have := List.mem_takeWhile_imp hc
  simpa using this

theorem string_mk_data (s : String) : String.mk s.data = s := rfl

theorem basename_eq_of_flat (a X : String) (hX : ∀ c ∈ X.data, c ≠ '/') :
    basename (a ++ "/" ++ X) = X := by
  have hdata : (a ++ "/" ++ X).data = (a.data ++ ['/']) ++ X.data := by
    simp [String.data_append]
  have hrev : (a ++ "/" ++ X).data.reverse = X.data.reverse ++ '/' :: a.data.reverse := by
    simp [hdata]
  have htk : (X.data.reverse ++ '/' :: a.data.reverse).takeWhile
      (fun c => decide (c ≠ '/')) = X.data.reverse := by
    rw [List.takeWhile_append_of_pos]
    · simp [List.takeWhile_cons]
    · intro c hc
      simp only [List.mem_reverse] at hc
      simpa using hX c hc
  simp only [basename, hrev, htk, List.reverse_reverse]

theorem backup_key_ne (base ts key : String) (hts : ∀ c ∈ ts.data, c ≠ '/') :
    backup_key base ts key ≠ key := by
  intro heq
  have hX : ∀ c ∈ (ts ++ "_" ++ basename key).data, c ≠ '/' := by
    intro c hc
    simp only [String.data_append, List.mem_append] at hc
    rcases hc with (hc | hc) | hc
    · exact hts c hc
    · simp only [show ("_" : String).data = ['_'] from rfl, List.mem_singleton] at hc
      subst hc; decide
    · exact basename_no_slash key c hc
  have hassoc : backup_key base ts key =
      (base ++ "/backups") ++ "/" ++ (ts ++ "_" ++ basename key) := by
    show base ++ "/backups/" ++ (ts ++ "_" ++ basename key) = _
    have h0 : ("/backups/" : String) = "/backups" ++ "/" := by decide
    rw [h0]
    simp [String.append_assoc]
  have hb : basename (backup_key base ts key) = ts ++ "_" ++ basename key := by
    rw [hassoc]
    exact basename_eq_of_flat _ _ hX
  rw [heq] at hb
  have hlen := congrArg String.length hb
  have h2 : (ts ++ "_" ++ basename key).length =
      ts.length + 1 + (basename key).length := by
    rw [String.length_append, String.length_append]
    simp [show ("_" : String).length = 1 from rfl]
  rw [h2] at hlen
  omega

/-- Claim C4: `move_to_backup` copies the consumed object to its timestamped
backup key strictly before deleting the live key, so after every prefix of
the two-operation sequence — the empty prefix, a crash after the copy, and
the completed move — the object is present at the live key or at the backup
key, never at neither (the timestamp contains no slash, so the backup key
always differs from the live key). -/
theorem claim_C4_archival (s : S3Keys) (base ts key : String)
    (hlive : s3Has s key = true) (hts : ∀ c ∈ ts.data, c ≠ '/') (n : Nat) :
    s3Has (runS3 s ((move_to_backup_ops base ts key).take n)) key = true ∨
    s3Has (runS3 s ((move_to_backup_ops base ts key).take n))
      (backup_key base ts key) = true := by
  have hne := backup_key_ne base ts key hts
  match n with
  | 0 =>
      left
      simpa [move_to_backup_ops, runS3] using hlive
  | 1 =>
      left
      have h1 : (move_to_backup_ops base ts key).take 1 =
          [S3Op.copyKey key (backup_key base ts key)] := rfl
      rw [h1]
      simp only [runS3, hlive, if_true]
      simp only [s3Has, List.any_append, Bool.or_eq_true]
      exact Or.inl hlive
  | n + 2 =>
      right
      have htake : (move_to_backup_ops base ts key).take (n + 2) =
          move_to_backup_ops base ts key := by
        simp [move_to_backup_ops, List.take]
      rw [htake]
      simp only [move_to_backup_ops, runS3, hlive, if_true]
      simp only [s3Has, List.any_eq_true]
      refine ⟨backup_key base ts key, ?_, by simp⟩
      simp only [List.mem_filter, List.mem_append]
      exact ⟨Or.inr (by simp), by simp [bne, hne]⟩

/-- Witness for claim C4 at a concrete store, key and timestamp, sampled
after the full copy-then-delete sequence. -/
theorem claim_C4_archival_witness :
    s3Has (runS3 ["d/media/a.jpg"]
        ((move_to_backup_ops "d" "20240101_120000" "d/media/a.jpg").take 2))
      "d/media/a.jpg" = true ∨
    s3Has (runS3 ["d/media/a.jpg"]
        ((move_to_backup_ops "d" "20240101_120000" "d/media/a.jpg").take 2))
      (backup_key "d" "20240101_120000" "d/media/a.jpg") = true :=
  claim_C4_archival ["d/media/a.jpg"] "d" "20240101_120000" "d/media/a.jpg"
    (by decide) (by decide) 2

/-! ### Downloader lemmas -/

theorem verify_write_false_iff (fs : FS) (p : String) (s e : Nat) :
    verify_file_integrity (fs.write p s) p (some e) = false ↔ (e ≠ 0 ∧ s ≠ e) := by
  rw [verify_write_some]
  by_cases he : e = 0 <;> by_cases hs : s = e <;> simp [he, hs]

theorem countAttempts_cons_attempt (i : Nat) (l : List DEv) :
    countAttempts (DEv.attempt i :: l) = countAttempts l + 1 := by
  simp [countAttempts, List.filter]

theorem countAttempts_cons_sleep (s : Nat) (l : List DEv) :
    countAttempts (DEv.sleep s :: l) = countAttempts l := by
  simp [countAttempts, List.filter]

theorem countAttempts_runTrace : ∀ (s k : Nat) (b : Bool), countAttempts (runTrace s k b) = k
  | _, 0, _ => rfl
  | s, 1, b => by
      cases b <;> simp [runTrace, countAttempts, List.filter]
  | s, k + 2, b => by
      rw [runTrace, countAttempts_cons_attempt, countAttempts_cons_sleep,
        countAttempts_runTrace (s + 1) (k + 1) b]

/-- Structure of a `download_loop` run: its event trace consists of `k ≤ fuel`
attempts separated by 2 second sleeps (with a possible trailing sleep), at
least one attempt runs when there is fuel, and every attempt except possibly
the last one had a retrying outcome — so a success or a "404" abort ends the
attempt sequence immediately. -/
theorem download_loop_trace (remote : S3Remote) (e : Nat) (path : String) :
    ∀ (fuel idx : Nat) (fs : FS), ∃ k b,
      k ≤ fuel ∧ (1 ≤ fuel → 1 ≤ k) ∧
      (download_loop remote e path fuel idx fs).2.2 = runTrace idx k b ∧
      (∀ j, j + 1 < k → attemptClass e (remote.outcome (idx + j)) = AClass.retry)
  | 0, idx, fs => ⟨0, false, Nat.le_refl 0, by omega, rfl, by omega⟩
  | fuel + 1, idx, fs => by
      rcases houtcome : remote.outcome idx with s | ⟨nf, leftover⟩
      · by_cases hv : verify_file_integrity ((fs.write path s)) path (some e) = true
        · refine ⟨1, false, by omega, by omega, ?_, by omega⟩
          simp [download_loop, houtcome, hv, runTrace]
        · simp only [Bool.not_eq_true] at hv
          have hcl : attemptClass e (remote.outcome idx) = AClass.retry := by
            rw [houtcome, attemptClass]
            simp [(verify_write_false_iff fs path s e).mp hv]
          rcases download_loop_trace remote e path fuel (idx + 1)
              (if (fs.write path s).existsF path then (fs.write path s).remove path
               else fs.write path s) with ⟨k', b', hk'le, _, htr, hcls⟩
          by_cases hk0 : k' = 0
          · refine ⟨1, true, by omega, by omega, ?_, by omega⟩
            subst hk0
            simp [download_loop, houtcome, hv, runTrace, htr]
          · refine ⟨k' + 1, b', by omega, by omega, ?_, ?_⟩
            · obtain ⟨m, rfl⟩ : ∃ m, k' = m + 1 := ⟨k' - 1, by omega⟩
              simp only [download_loop, houtcome, hv, Bool.false_eq_true, if_false]
              rw [show runTrace idx (m + 1 + 1) b' =
                  DEv.attempt idx :: DEv.sleep 2 :: runTrace (idx + 1) (m + 1) b' from rfl]
              simp [htr]
            · intro j hj
              match j with
              | 0 => simpa using hcl
              | j + 1 =>
                  have := hcls j (by omega)
                  rwa [show idx + (j + 1) = idx + 1 + j by omega]
      · by_cases hnf : nf = true
        · refine ⟨1, false, by omega, by omega, ?_, by omega⟩
          simp [download_loop, houtcome, hnf, runTrace]
        · simp only [Bool.not_eq_true] at hnf
          have hcl : attemptClass e (remote.outcome idx) = AClass.retry := by
            rw [houtcome, attemptClass]
            simp [hnf]
          subst hnf
          cases leftover with
          | none =>
              rcases download_loop_trace remote e path fuel (idx + 1)
                  (if fs.existsF path then fs.remove path else fs) with
                ⟨k', b', hk'le, _, htr, hcls⟩
              by_cases hk0 : k' = 0
              · refine ⟨1, true, by omega, by omega, ?_, by omega⟩
                subst hk0
                simp [download_loop, houtcome, runTrace, htr]
              · refine ⟨k' + 1, b', by omega, by omega, ?_, ?_⟩
                · obtain ⟨m, rfl⟩ : ∃ m, k' = m + 1 := ⟨k' - 1, by omega⟩
                  simp only [download_loop, houtcome, Bool.false_eq_true, if_false]
                  rw [show runTrace idx (m + 1 + 1) b' =
                      DEv.attempt idx :: DEv.sleep 2 :: runTrace (idx + 1) (m + 1) b' from rfl]
                  simp [htr]
                · intro j hj
                  match j with
                  | 0 => simpa using hcl
                  | j + 1 =>
                      have := hcls j (by omega)
                      rwa [show idx + (j + 1) = idx + 1 + j by omega]
          | some ls =>
              rcases download_loop_trace remote e path fuel (idx + 1)
                  (if (fs.write path ls).existsF path then (fs.write path ls).remove path
                   else fs.write path ls) with ⟨k', b', hk'le, _, htr, hcls⟩
              by_cases hk0 : k' = 0
              · refine ⟨1, true, by omega, by omega, ?_, by omega⟩
                subst hk0
                simp [download_loop, houtcome, runTrace, htr]
              · refine ⟨k' + 1, b', by omega, by omega, ?_, ?_⟩
                · obtain ⟨m, rfl⟩ : ∃ m, k' = m + 1 := ⟨k' - 1, by omega⟩
                  simp only [download_loop, houtcome, Bool.false_eq_true, if_false]
                  rw [show runTrace idx (m + 1 + 1) b' =
                      DEv.attempt idx :: DEv.sleep 2 :: runTrace (idx + 1) (m + 1) b' from rfl]
                  simp [htr]
                · intro j hj
                  match j with
                  | 0 => simpa using hcl
                  | j + 1 =>
                      have := hcls j (by omega)
                      rwa [show idx + (j + 1) = idx + 1 + j by omega]

/-! ### Claim C6 — retry policy -/

/-- Claim C6: `download_file` makes at most `retry_count = 3` transfer
attempts, whose trace is consecutive attempts separated by a fixed 2 second
`time.sleep` backoff (`runTrace`); when `head_object` yields no size it
returns failure at once with no attempt and no sleep; and every attempt
before the last had a retrying outcome, so an attempt whose error carries
the "404" not-found marker (`attemptClass = abort`) is never followed by
another attempt. -/
theorem claim_C6_retry_policy (remote : S3Remote) (fs : FS) (dir base : String) :
    (remote.headSize = none → download_file remote fs dir base 3 = (none, fs, [])) ∧
    (∀ e, remote.headSize = some e →
      ∃ k b, 1 ≤ k ∧ k ≤ 3 ∧
        (download_file remote fs dir base 3).2.2 = runTrace 0 k b ∧
        countAttempts (download_file remote fs dir base 3).2.2 = k ∧
        (∀ j, j + 1 < k → attemptClass e (remote.outcome j) = AClass.retry)) := by
  constructor
  · intro h
    simp [download_file, h]
  · intro e h
    have hunfold : (download_file remote fs dir base 3).2.2 =
        (download_loop remote e (download_dest fs dir base) 3 0 fs).2.2 := by
      simp [download_file, h]
    rcases download_loop_trace remote e (download_dest fs dir base) 3 0 fs with
      ⟨k, b, hk, hpos, htr, hcls⟩
    refine ⟨k, b, hpos (by omega), hk, by rw [hunfold, htr], ?_, ?_⟩
    · rw [hunfold, htr, countAttempts_runTrace]
    · intro j hj
      simpa using hcls j hj

/-- Witness for claim C6: a remote whose head call fails produces an
immediate failure with an empty trace. -/
theorem claim_C6_retry_policy_witness :
    download_file ⟨none, fun _ => AttemptOutcome.ok 1⟩ ⟨[]⟩ "/m/" "w.mov" 3 =
      (none, ⟨[]⟩, []) :=
  (claim_C6_retry_policy ⟨none, fun _ => AttemptOutcome.ok 1⟩ ⟨[]⟩ "/m/" "w.mov").1 rfl

/-- On a successful return, `download_loop` hands back its destination path,
and the written file's size equals the advertised size whenever the latter is
nonzero (the size comparison is disabled for advertised size 0). -/
theorem download_loop_success (remote : S3Remote) (e : Nat) (path : String) :
    ∀ (fuel idx : Nat) (fs : FS) (p : String),
      (download_loop remote e path fuel idx fs).1 = some p →
      p = path ∧
      (e ≠ 0 → (download_loop remote e path fuel idx fs).2.1.getsize p = some e)
  | 0, idx, fs, p => by
      intro h
      simp [download_loop] at h
  | fuel + 1, idx, fs, p => by
      intro h
      rcases houtcome : remote.outcome idx with s | ⟨nf, leftover⟩
      · by_cases hv : verify_file_integrity ((fs.write path s)) path (some e) = true
        · simp only [download_loop, houtcome, hv, if_true] at h ⊢
          obtain rfl : path = p := by simpa using h
          refine ⟨rfl, fun he => ?_⟩
          have hse : s = e := by
            by_contra hne
            have := (verify_write_false_iff fs path s e).mpr ⟨he, hne⟩
            rw [this] at hv
            exact Bool.false_ne_true hv
          subst hse
          simpa using getsize_write fs path s
        · simp only [Bool.not_eq_true] at hv
          simp only [download_loop, houtcome, hv, Bool.false_eq_true, if_false] at h ⊢
          exact download_loop_success remote e path fuel (idx + 1) _ p h
      · by_cases hnf : nf = true
        · simp [download_loop, houtcome, hnf] at h
        · simp only [Bool.not_eq_true] at hnf
          subst hnf
          cases leftover with
          | none =>
              simp only [download_loop, houtcome, Bool.false_eq_true, if_false] at h ⊢
              exact download_loop_success remote e path fuel (idx + 1) _ p h
          | some ls =>
              simp only [download_loop, houtcome, Bool.false_eq_true, if_false] at h ⊢
              exact download_loop_success remote e path fuel (idx + 1) _ p h

/-- On a failed return with at least one attempt of fuel, `download_loop`
leaves no file at its destination path: each failure path deletes the
partial or mismatching file before retrying or giving up. -/
theorem download_loop_failure (remote : S3Remote) (e : Nat) (path : String) :
    ∀ (fuel idx : Nat) (fs : FS), 1 ≤ fuel →
      (download_loop remote e path fuel idx fs).1 = none →
      ((download_loop remote e path fuel idx fs).2.1).existsF path = false
  | 0, idx, fs => by omega
  | fuel + 1, idx, fs => by
      intro _ h
      rcases houtcome : remote.outcome idx with s | ⟨nf, leftover⟩
      · by_cases hv : verify_file_integrity ((fs.write path s)) path (some e) = true
        · simp [download_loop, houtcome, hv] at h
        · simp only [Bool.not_eq_true] at hv
          simp only [download_loop, houtcome, hv, Bool.false_eq_true, if_false] at h ⊢
          rcases Nat.eq_zero_or_pos fuel with hf | hf
          · subst hf
            simp only [download_loop]
            simp only [existsF_write, if_true]
            exact existsF_remove _ path
          · exact download_loop_failure remote e path fuel (idx + 1) _ hf h
      · by_cases hnf : nf = true
        · subst hnf
          cases leftover with
          | none =>
              simp only [download_loop, houtcome]
              by_cases hfs : fs.existsF path = true
              · simp [hfs, existsF_remove]
              · simp only [Bool.not_eq_true] at hfs
                simp [hfs]
          | some ls =>
              simp only [download_loop, houtcome]
              simp [existsF_write, existsF_remove]
        · simp only [Bool.not_eq_true] at hnf
          subst hnf
          cases leftover with
          | none =>
              simp only [download_loop, houtcome, Bool.false_eq_true, if_false] at h ⊢
              rcases Nat.eq_zero_or_pos fuel with hf | hf
              · subst hf
                simp only [download_loop]
                by_cases hfs : fs.existsF path = true
                · simp [hfs, existsF_remove]
                · simp only [Bool.not_eq_true] at hfs
                  simp [hfs]
              · exact download_loop_failure remote e path fuel (idx + 1) _ hf h
          | some ls =>
              simp only [download_loop, houtcome, Bool.false_eq_true, if_false] at h ⊢
              rcases Nat.eq_zero_or_pos fuel with hf | hf
              · subst hf
                simp only [download_loop]
                simp only [existsF_write, if_true]
                exact existsF_remove _ path
              · exact download_loop_failure remote e path fuel (idx + 1) _ hf h

/-! ### Claim C2 — download integrity (corrected) -/

/-- Claim C2 (amended): when `download_file` succeeds and the advertised
(head) size is nonzero, the file at the returned destination path has
exactly that size; when the advertised size is 0 the size comparison is
skipped, so success only guarantees the file exists (any byte count).  When
it fails after the size query succeeded, no file exists at the destination
path (every failing attempt deletes its partial file); when the size query
itself fails, nothing is ever written (the filesystem is returned
unchanged). -/
theorem claim_C2_download_integrity (remote : S3Remote) (fs : FS) (dir base : String) :
    (∀ e, remote.headSize = some e →
      (∀ p, (download_file remote fs dir base 3).1 = some p →
        p = download_dest fs dir base ∧
        (e ≠ 0 → (download_file remote fs dir base 3).2.1.getsize p = some e)) ∧
      ((download_file remote fs dir base 3).1 = none →
        ((download_file remote fs dir base 3).2.1).existsF
          (download_dest fs dir base) = false)) ∧
    (remote.headSize = none → download_file remote fs dir base 3 = (none, fs, [])) := by
  constructor
  · intro e he
    have hunfold : download_file remote fs dir base 3 =
        download_loop remote e (download_dest fs dir base) 3 0 fs := by
      simp [download_file, he]
    rw [hunfold]
    constructor
    · intro p hp
      exact download_loop_success remote e (download_dest fs dir base) 3 0 fs p hp
    · intro hn
      exact download_loop_failure remote e (download_dest fs dir base) 3 0 fs
        (by omega) hn
  · intro h
    simp [download_file, h]

/-- Counterexample to claim C2 as stated: a remote head advertising 0 bytes
while the transfer writes 5 bytes yields a successful download whose local
file size (5) differs from the advertised size (0). -/
theorem claim_C2_download_integrity_counterexample :
    (download_file ⟨some 0, fun _ => AttemptOutcome.ok 5⟩ ⟨[]⟩ "/m/" "b.png" 3).1 =
      some "/m/b.png" ∧
    (download_file ⟨some 0, fun _ => AttemptOutcome.ok 5⟩ ⟨[]⟩ "/m/" "b.png" 3).2.1.getsize
      "/m/b.png" = some 5 ∧
    S3Remote.headSize ⟨some 0, fun _ => AttemptOutcome.ok 5⟩ = some 0 ∧
    (5 : Nat) ≠ 0 := by
  refine ⟨by decide, by decide, rfl, by decide⟩

/-- Witness for claim C2 at a concrete remote advertising 7 bytes whose
transfer writes 7 bytes. -/
theorem claim_C2_download_integrity_witness :
    (download_file ⟨some 7, fun _ => AttemptOutcome.ok 7⟩ ⟨[]⟩ "/m/" "c.gif" 3).2.1.getsize
      "/m/c.gif" = some 7 :=
  (((claim_C2_download_integrity ⟨some 7, fun _ => AttemptOutcome.ok 7⟩ ⟨[]⟩
    "/m/" "c.gif").1 7 rfl).1 "/m/c.gif" (by decide)).2 (by decide)

/-! ### Resolver lemmas -/

/-- Characterization of the manifest resolution block: the playlist is the
manifest filtered in order, each surviving entry carrying the matched local
path, the media type re-derived from that path, and the manifest's
duration. -/
theorem apply_manifest_eq_filterMap (dir : String) (disk : List String)
    (loaded : List MItem) (files : List MediaFileR) :
    apply_manifest dir disk loaded files =
      loaded.filterMap (fun it =>
        match lookupLast (build_file_map files) (basename it.filename) with
        | some p =>
            if pathExistsDisk dir disk p then
              some { path := some p, ptype := get_media_type p, order := none,
                     duration := it.mduration }
            else none
        | none => none) := by
  induction loaded with
  | nil => rfl
  | cons it rest ih =>
      simp only [apply_manifest] at ih ⊢
      simp only [List.map_cons, List.filter_cons, List.filterMap_cons]
      cases hl : lookupLast (build_file_map files) (basename it.filename) with
      | none => simpa [hl] using ih
      | some p =>
          by_cases hex : pathExistsDisk dir disk p = true
          · simpa [hl, hex] using ih
          · simp only [Bool.not_eq_true] at hex
            simpa [hl, hex] using ih

theorem lookupLast_mem (m : List (String × String)) (k v : String)
    (h : lookupLast m k = some v) : ∃ kk, (kk, v) ∈ m := by
  simp only [lookupLast, Option.map_eq_some'] at h
  rcases h with ⟨e, he, rfl⟩
  exact ⟨e.1, by simpa using List.mem_of_find?_eq_some he⟩

theorem build_file_map_mem (files : List MediaFileR) (kk v : String)
    (h : (kk, v) ∈ build_file_map files) : v ∈ files.map (fun f => f.path) := by
  simp only [build_file_map, List.mem_map] at h
  rcases h with ⟨f, hf, he⟩
  simp only [List.mem_map]
  exact ⟨f, hf, congrArg Prod.snd he⟩

/-- The keep-condition of `clean_old_media`, spelled out: an entry stays
exactly when its joined path is a current media path, or it has no media
extension, or its deletion failed. -/
theorem clean_keep_iff (dir : String) (rf : String → Bool)
    (current : List MediaFileR) (file : String) :
    ((if !((current.map (fun f => f.path)).contains (dir ++ file)) &&
        (is_video_file file || is_image_file file) then rf (dir ++ file)
      else true) = true) ↔
    ((dir ++ file) ∈ current.map (fun f => f.path) ∨
     ¬(is_video_file file = true ∨ is_image_file file = true) ∨
     rf (dir ++ file) = true) := by
  by_cases hm : (dir ++ file) ∈ current.map (fun f => f.path)
  · have hc : (current.map (fun f => f.path)).contains (dir ++ file) = true :=
      List.elem_iff.mpr hm
    have hcond : (!((current.map (fun f => f.path)).contains (dir ++ file)) &&
        (is_video_file file || is_image_file file)) = false := by
      rw [hc]; rfl
    rw [if_neg (by intro h; rw [hcond] at h; exact Bool.false_ne_true h)]
    exact ⟨fun _ => Or.inl hm, fun _ => rfl⟩
  · have hc : (current.map (fun f => f.path)).contains (dir ++ file) = false := by
      cases h2 : (current.map (fun f => f.path)).contains (dir ++ file)
      · rfl
      · exact absurd (List.elem_iff.mp h2) hm
    by_cases hv : (is_video_file file || is_image_file file) = true
    · have hcond : (!((current.map (fun f => f.path)).contains (dir ++ file)) &&
          (is_video_file file || is_image_file file)) = true := by
        rw [hc, hv]; rfl
      rw [if_pos hcond]
      constructor
      · intro h
        exact Or.inr (Or.inr h)
      · rintro (h | h | h)
        · exact absurd h hm
        · exact absurd (by simpa using hv) h
        · exact h
    · have hveq : (is_video_file file || is_image_file file) = false := by
        cases h2 : (is_video_file file || is_image_file file)
        · rfl
        · exact absurd h2 hv
      have hnot : ¬(is_video_file file = true ∨ is_image_file file = true) := by
        rintro (h | h) <;> simp [h] at hveq
      have hcond : (!((current.map (fun f => f.path)).contains (dir ++ file)) &&
          (is_video_file file || is_image_file file)) = false := by
        rw [hc, hveq]; rfl
      rw [if_neg (by intro h; rw [hcond] at h; exact Bool.false_ne_true h)]
      exact ⟨fun _ => Or.inr (Or.inl hnot), fun _ => rfl⟩

/-! ### Claim C3 — playlist resolution (corrected) -/

/-- Claim C3 (amended): with a remote manifest present, each entry is
matched by basename against the downloaded items' local paths; entries with
no match (or whose matched path is not on disk) are dropped, and the
survivors in manifest order form the playlist, each inheriting its dwell
time from the manifest — but the kind is **re-derived** from the matched
local path's extension (`get_media_type`), not inherited from the
manifest's kind field. -/
theorem claim_C3_resolver (dir : String) (disk : List String)
    (loaded : List MItem) (files : List MediaFileR) :
    apply_manifest dir disk loaded files =
      loaded.filterMap (fun it =>
        match lookupLast (build_file_map files) (basename it.filename) with
        | some p =>
            if pathExistsDisk dir disk p then
              some { path := some p, ptype := get_media_type p, order := none,
                     duration := it.mduration }
            else none
        | none => none) :=
  apply_manifest_eq_filterMap dir disk loaded files

/-- Counterexample to claim C3 as stated: a manifest entry declaring kind
"video" for filename "a.jpg" is matched to the local file "/m/a.jpg", and
the resolved playlist entry carries kind image (derived from the ".jpg"
extension), not the manifest's declared video kind. -/
theorem claim_C3_resolver_counterexample :
    (apply_manifest "/m/" ["a.jpg"]
        [⟨"a.jpg", some MType.video, some (some 5)⟩]
        [⟨"/m/a.jpg", some MType.image, none⟩]).map
      (fun it => it.ptype) = [some MType.image] ∧
    MItem.mkind ⟨"a.jpg", some MType.video, some (some 5)⟩ = some MType.video ∧
    (some MType.image ≠ some MType.video) := by
  exact ⟨by decide, rfl, by decide⟩

/-! ### Claim C5 — retention sweep (corrected) -/

/-- Claim C5 (amended): the sweep is keyed on the freshly downloaded media
file list (`current_media_files`), not on the active playlist: it deletes
exactly the media-extension directory entries whose joined path is not among
the current media file paths (deletion failures are skipped, the entry
stays).  Every resolved playlist entry's path — via manifest resolution or
the default playlist — is one of the current media file paths, hence every
playlist-referenced file (in particular the one about to play) survives the
sweep; but a downloaded file dropped from the manifest playlist also
survives, although no playlist entry references it. -/
theorem claim_C5_sweep (dir : String) (rf : String → Bool) (disk : List String)
    (current : List MediaFileR) (loaded : List MItem) :
    (∀ file, file ∈ clean_old_media dir rf disk current ↔
      file ∈ disk ∧ ((dir ++ file) ∈ current.map (fun f => f.path) ∨
        ¬(is_video_file file = true ∨ is_image_file file = true) ∨
        rf (dir ++ file) = true)) ∧
    (∀ it, it ∈ apply_manifest dir disk loaded current →
      ∃ p, it.path = some p ∧ p ∈ current.map (fun f => f.path)) ∧
    (∀ it, it ∈ create_default_playlist current →
      ∃ p, it.path = some p ∧ p ∈ current.map (fun f => f.path)) ∧
    (∀ p, p ∈ current.map (fun f => f.path) →
      pathExistsDisk dir disk p = true →
      pathExistsDisk dir (clean_old_media dir rf disk current) p = true) := by
  refine ⟨?_, ?_, ?_, ?_⟩
  · intro file
    simp only [clean_old_media, List.mem_filter]
    constructor
    · rintro ⟨hd, hp⟩
      exact ⟨hd, (clean_keep_iff dir rf current file).mp hp⟩
    · rintro ⟨hd, hcase⟩
      exact ⟨hd, (clean_keep_iff dir rf current file).mpr hcase⟩
  · intro it hit
    rw [apply_manifest_eq_filterMap] at hit
    simp only [List.mem_filterMap] at hit
    rcases hit with ⟨src, _, hsrc⟩
    cases hl : lookupLast (build_file_map current) (basename src.filename) with
    | none => simp [hl] at hsrc
    | some p =>
        simp only [hl] at hsrc
        by_cases hex : pathExistsDisk dir disk p = true
        · simp only [hex, if_true, Option.some.injEq] at hsrc
          subst hsrc
          rcases lookupLast_mem _ _ _ hl with ⟨kk, hkk⟩
          exact ⟨p, rfl, build_file_map_mem current kk p hkk⟩
        · simp only [Bool.not_eq_true] at hex
          simp [hex] at hsrc
  · intro it hit
    simp only [create_default_playlist] at hit
    have hmem := (List.mergeSort_perm _ _).mem_iff.mp hit
    simp only [List.mem_map] at hmem
    rcases hmem with ⟨pr, hpr, rfl⟩
    refine ⟨pr.2.path, rfl, ?_⟩
    simp only [List.mem_map]
    exact ⟨pr.2, List.snd_mem_of_mem_enum hpr, rfl⟩
  · intro p hp hex
    simp only [pathExistsDisk, List.any_eq_true] at hex ⊢
    rcases hex with ⟨n, hn, heq⟩
    refine ⟨n, ?_, heq⟩
    simp only [clean_old_media, List.mem_filter]
    refine ⟨hn, (clean_keep_iff dir rf current n).mpr (Or.inl ?_)⟩
    have heq2 : dir ++ n = p := by simpa using heq
    rwa [heq2]

/-- Counterexample to claim C5 as stated: a sync pass whose manifest
references only "a.jpg" while the downloads list also holds "b.mp4" produces
an active playlist referencing only "/m/a.jpg", yet "b.mp4" — not referenced
by that playlist — is still on disk after the sweep (the sweep is keyed on
`current_media_files`, not on the playlist). -/
theorem claim_C5_sweep_counterexample :
    (iterate "/m/"
        ⟨true, some [⟨"a.jpg", some MType.image, some (some 5)⟩], [], true, true, true,
         fun _ => false⟩
        ⟨["a.jpg", "b.mp4"], none, none,
         [⟨"/m/a.jpg", some MType.image, none⟩, ⟨"/m/b.mp4", some MType.video, none⟩],
         0, none, 0⟩).1.map
      (fun st => ((st.current_playlist.getD []).filterMap (fun it => it.path), st.disk)) =
    some (["/m/a.jpg"], ["a.jpg", "b.mp4"]) := by
  decide

/-- Witness for claim C5: a playlist-referenced file survives a concrete
sweep. -/
theorem claim_C5_sweep_witness :
    pathExistsDisk "/m/" (clean_old_media "/m/" (fun _ => false) ["a.jpg"]
      [⟨"/m/a.jpg", some MType.image, none⟩]) "/m/a.jpg" = true :=
  (claim_C5_sweep "/m/" (fun _ => false) ["a.jpg"]
    [⟨"/m/a.jpg", some MType.image, none⟩] []).2.2.2 "/m/a.jpg" (by decide) (by decide)

/-! ### Controller phase lemmas -/

/-- Phase A behaviour for a single-item image playlist: the image starts in
indefinite mode (no `--image-duration`, whatever the entry's duration
field), the handle is retained and the cursor does not move; the rest of a
quiet pass changes nothing. -/
theorem iterate_single_image (dir : String) (env : LoopEnv) (st : CtrlState)
    (it : PItem) (hproc : st.current_process = none) (hchk : env.checkNow = false)
    (hpl : st.current_playlist = some [it]) (hty : it.ptype = some MType.image)
    (hidx : st.current_index = 0) :
    iterate dir env st =
      (some { st with current_process := some st.nextPid, nextPid := st.nextPid + 1 },
       [PAct.startImage st.nextPid (it.path.getD "") none]) := by
  have hA : phaseA env st =
      (some { st with current_process := some st.nextPid, nextPid := st.nextPid + 1 },
       [PAct.startImage st.nextPid (it.path.getD "") none]) := by
    simp [phaseA, hproc, hpl, hidx, hty]
  have hB : phaseB dir env
      { st with current_process := some st.nextPid, nextPid := st.nextPid + 1 } =
      ({ st with current_process := some st.nextPid, nextPid := st.nextPid + 1 }, []) := by
    simp [phaseB, hchk]
  have hC : phaseC env
      { st with current_process := some st.nextPid, nextPid := st.nextPid + 1 } =
      ({ st with current_process := some st.nextPid, nextPid := st.nextPid + 1 }, []) := by
    simp [phaseC, hpl, hty, hidx]
  have hD : phaseD
      { st with current_process := some st.nextPid, nextPid := st.nextPid + 1 } =
      { st with current_process := some st.nextPid, nextPid := st.nextPid + 1 } := by
    simp [phaseD, hpl]
  simp [iterate, hA, hB, hC, hD]

/-- Phase A behaviour for an image item in a playlist with more than one
item and a dwell of `d` seconds: start in slideshow mode (indefinite mode
when `d = 0`, as Python treats 0 as falsy), sleep `d` seconds, stop the
process, and advance the cursor modulo the playlist length; the rest of a
quiet pass changes nothing. -/
theorem iterate_multi_image (dir : String) (env : LoopEnv) (st : CtrlState)
    (pl : List PItem) (d : Nat)
    (hproc : st.current_process = none) (hchk : env.checkNow = false)
    (hpl : st.current_playlist = some pl) (hlen : 1 < pl.length)
    (hty : (pl.getD st.current_index dummyItem).ptype = some MType.image)
    (hdur : getDuration (pl.getD st.current_index dummyItem) = some d) :
    iterate dir env st =
      (some { st with
                current_process := none
                nextPid := st.nextPid + 1
                current_index := (st.current_index + 1) % pl.length },
       PAct.startImage st.nextPid ((pl.getD st.current_index dummyItem).path.getD "")
           (if d != 0 then some d else none) ::
         PAct.sleepFor d :: stopSeq env.gracefulA (some st.nextPid)) := by
  have hA : phaseA env st =
      (some { st with
                current_process := none
                nextPid := st.nextPid + 1
                current_index := (st.current_index + 1) % pl.length },
       PAct.startImage st.nextPid ((pl.getD st.current_index dummyItem).path.getD "")
           (if d != 0 then some d else none) ::
         PAct.sleepFor d :: stopSeq env.gracefulA (some st.nextPid)) := by
    have hty2 : (pl[st.current_index]?.getD dummyItem).ptype = some MType.image := by
      simpa [List.getD] using hty
    have hdur2 : getDuration (pl[st.current_index]?.getD dummyItem) = some d := by
      simpa [List.getD] using hdur
    simp [phaseA, hproc, hpl, hty2, hdur2, truthy,
      show ¬ pl.length = 0 by omega, show ¬ pl.length = 1 by omega]
  have hB : phaseB dir env
      { st with
          current_process := none
          nextPid := st.nextPid + 1
          current_index := (st.current_index + 1) % pl.length } =
      ({ st with
           current_process := none
           nextPid := st.nextPid + 1
           current_index := (st.current_index + 1) % pl.length }, []) := by
    simp [phaseB, hchk]
  have hC : phaseC env
      { st with
          current_process := none
          nextPid := st.nextPid + 1
          current_index := (st.current_index + 1) % pl.length } =
      ({ st with
           current_process := none
           nextPid := st.nextPid + 1
           current_index := (st.current_index + 1) % pl.length }, []) := by
    simp [phaseC]
  have hD : phaseD
      { st with
          current_process := none
          nextPid := st.nextPid + 1
          current_index := (st.current_index + 1) % pl.length } =
      { st with
          current_process := none
          nextPid := st.nextPid + 1
          current_index := (st.current_index + 1) % pl.length } := by
    simp [phaseD, hpl, show ¬ pl.length = 0 by omega]
  simp [iterate, hA, hB, hC, hD]

/-! ### Claim C7 — image playback semantics -/

/-- Claim C7: in a quiet loop pass with no process running, a single-item
image playlist is started in indefinite display mode — no auto-advance, the
cursor stays, the handle is kept, and the entry's dwell value is ignored (no
duration flag is passed); an image item of a playlist with more than one
item is started, the loop sleeps for the item's dwell `d`, stops the
process, and advances the cursor to the next index modulo the playlist
length. -/
theorem claim_C7_image_playback (dir : String) (env : LoopEnv) (st : CtrlState)
    (hproc : st.current_process = none) (hchk : env.checkNow = false) :
    (∀ it, st.current_playlist = some [it] → it.ptype = some MType.image →
      st.current_index = 0 →
      iterate dir env st =
        (some { st with current_process := some st.nextPid, nextPid := st.nextPid + 1 },
         [PAct.startImage st.nextPid (it.path.getD "") none])) ∧
    (∀ pl d, st.current_playlist = some pl → 1 < pl.length →
      (pl.getD st.current_index dummyItem).ptype = some MType.image →
      getDuration (pl.getD st.current_index dummyItem) = some d →
      iterate dir env st =
        (some { st with
                  current_process := none
                  nextPid := st.nextPid + 1
                  current_index := (st.current_index + 1) % pl.length },
         PAct.startImage st.nextPid ((pl.getD st.current_index dummyItem).path.getD "")
             (if d != 0 then some d else none) ::
           PAct.sleepFor d :: stopSeq env.gracefulA (some st.nextPid))) :=
  ⟨fun it h1 h2 h3 => iterate_single_image dir env st it hproc hchk h1 h2 h3,
   fun pl d h1 h2 h3 h4 => iterate_multi_image dir env st pl d hproc hchk h1 h2 h3 h4⟩

/-- Witness for claim C7: a concrete single-image playlist starts in
indefinite mode, ignoring its dwell field of 4 seconds. -/
theorem claim_C7_image_playback_witness :
    iterate "/m/" ⟨false, none, [], true, true, true, fun _ => false⟩
      ⟨["i.png"], none, some [⟨some "/m/i.png", some MType.image, some 0, some (some 4)⟩],
       [], 0, none, 0⟩ =
      (some ⟨["i.png"], none,
         some [⟨some "/m/i.png", some MType.image, some 0, some (some 4)⟩], [], 0,
         some 0, 1⟩,
       [PAct.startImage 0 "/m/i.png" none]) :=
  (claim_C7_image_playback "/m/" ⟨false, none, [], true, true, true, fun _ => false⟩
    ⟨["i.png"], none, some [⟨some "/m/i.png", some MType.image, some 0, some (some 4)⟩],
     [], 0, none, 0⟩ rfl rfl).1
    ⟨some "/m/i.png", some MType.image, some 0, some (some 4)⟩ rfl rfl rfl

/-! ### Claim C10 — default image dwell of 10 seconds -/

/-- Claim C10: in a quiet loop pass, an image item of a playlist with more
than one item whose entry has no "duration" key is displayed with the
default dwell of 10 seconds — slideshow mode with duration 10, a 10 second
sleep, then the process is stopped and the cursor advances modulo the
playlist length. -/
theorem claim_C10_default_dwell (dir : String) (env : LoopEnv) (st : CtrlState)
    (pl : List PItem)
    (hproc : st.current_process = none) (hchk : env.checkNow = false)
    (hpl : st.current_playlist = some pl) (hlen : 1 < pl.length)
    (hty : (pl.getD st.current_index dummyItem).ptype = some MType.image)
    (hdur : (pl.getD st.current_index dummyItem).duration = none) :
    iterate dir env st =
      (some { st with
                current_process := none
                nextPid := st.nextPid + 1
                current_index := (st.current_index + 1) % pl.length },
       PAct.startImage st.nextPid ((pl.getD st.current_index dummyItem).path.getD "")
           (some 10) ::
         PAct.sleepFor 10 :: stopSeq env.gracefulA (some st.nextPid)) := by
  have hd : getDuration (pl.getD st.current_index dummyItem) = some 10 := by
    have hdur2 : (pl[st.current_index]?.getD dummyItem).duration = none := by
      simpa [List.getD] using hdur
    simp [getDuration, List.getD, hdur2]
  exact iterate_multi_image dir env st pl 10 hproc hchk hpl hlen hty hd

/-- Witness for claim C10: a concrete two-item playlist whose first image
entry carries no duration key runs with the 10 second default and advances
to index 1. -/
theorem claim_C10_default_dwell_witness :
    iterate "/m/" ⟨false, none, [], true, true, true, fun _ => false⟩
      ⟨["i.png", "v.mp4"], none,
       some [⟨some "/m/i.png", some MType.image, some 0, none⟩,
             ⟨some "/m/v.mp4", some MType.video, some 1, some none⟩],
       [], 0, none, 5⟩ =
      (some ⟨["i.png", "v.mp4"], none,
         some [⟨some "/m/i.png", some MType.image, some 0, none⟩,
               ⟨some "/m/v.mp4", some MType.video, some 1, some none⟩],
         [], 1, none, 6⟩,
       [PAct.startImage 5 "/m/i.png" (some 10), PAct.sleepFor 10,
        PAct.terminateP 5, PAct.waitOk 5]) :=
  claim_C10_default_dwell "/m/" ⟨false, none, [], true, true, true, fun _ => false⟩
    ⟨["i.png", "v.mp4"], none,
     some [⟨some "/m/i.png", some MType.image, some 0, none⟩,
           ⟨some "/m/v.mp4", some MType.video, some 1, some none⟩],
     [], 0, none, 5⟩
    [⟨some "/m/i.png", some MType.image, some 0, none⟩,
     ⟨some "/m/v.mp4", some MType.video, some 1, some none⟩]
    rfl rfl rfl (by decide) rfl rfl

/-! ### Liveness accounting lemmas (towards claim C1) -/

theorem procList_len (o : Option Nat) : (procList o).length ≤ 1 := by
  cases o <;> simp [procList]

theorem okFrom_nil (live : List Nat) (h : live.length ≤ 1) : OkFrom live [] := by
  intro n
  simpa [OkFrom, liveSteps] using h

theorem okFrom_cons (live : List Nat) (a : PAct) (acts : List PAct)
    (h1 : live.length ≤ 1) (h2 : OkFrom (actLive live a) acts) :
    OkFrom live (a :: acts) := by
  intro n
  cases n with
  | zero => simpa [liveSteps] using h1
  | succ m =>
      have := h2 m
      simpa [liveSteps, List.take_succ_cons] using this

theorem okFrom_append (live : List Nat) (a b : List PAct)
    (h1 : OkFrom live a) (h2 : OkFrom (liveSteps live a) b) :
    OkFrom live (a ++ b) := by
  intro n
  rcases Nat.le_total n a.length with h | h
  · rw [List.take_append_of_le_length h]
    exact h1 n
  · rw [List.take_append_eq_append_take]
    rw [List.take_of_length_le h]
    have := h2 (n - a.length)
    simpa [liveSteps, List.foldl_append] using this

theorem liveSteps_stopSeq (g : Bool) (p : Nat) :
    liveSteps [p] (stopSeq g (some p)) = [] := by
  cases g <;> simp [stopSeq, liveSteps, actLive, List.filter]

theorem okFrom_stopSeq (g : Bool) (p : Nat) : OkFrom [p] (stopSeq g (some p)) := by
  cases g <;> intro n <;>
    match n with
    | 0 => simp [liveSteps]
    | 1 => simp [stopSeq, liveSteps, actLive, List.take_succ_cons, List.filter]
    | 2 => simp [stopSeq, liveSteps, actLive, List.take_succ_cons, List.filter]
    | m + 3 => simp [stopSeq, liveSteps, actLive, List.take_succ_cons, List.filter]

/-- Phase A preserves the single-renderer discipline: every prefix of its
action trace has at most one live renderer, and on a normal return the live
set is exactly the state's process slot. -/
theorem phaseA_ok (env : LoopEnv) (st : CtrlState) :
    OkFrom (procList st.current_process) (phaseA env st).2 ∧
    (∀ st1, (phaseA env st).1 = some st1 →
      liveSteps (procList st.current_process) (phaseA env st).2 =
        procList st1.current_process) := by
  cases hp : st.current_process with
  | some p =>
      refine ⟨?_, ?_⟩
      · simp only [phaseA, hp]
        exact okFrom_nil _ (by simp [procList])
      · intro st1 h1
        simp only [phaseA, hp] at h1 ⊢
        cases Option.some.inj h1
        simp [liveSteps, hp]
  | none =>
      cases hpl : st.current_playlist with
      | none =>
          refine ⟨?_, ?_⟩
          · simp only [phaseA, hp, hpl]
            exact okFrom_nil _ (by simp [procList])
          · intro st1 h1
            simp only [phaseA, hp, hpl] at h1 ⊢
            cases Option.some.inj h1
            simp [liveSteps, hp]
      | some pl =>
          by_cases hlen : pl.length = 0
          · refine ⟨?_, ?_⟩
            · simp only [phaseA, hp, hpl, if_pos hlen]
              exact okFrom_nil _ (by simp [procList])
            · intro st1 h1
              simp only [phaseA, hp, hpl, if_pos hlen] at h1 ⊢
              cases Option.some.inj h1
              simp [liveSteps, hp]
          · cases hty : (pl.getD st.current_index dummyItem).ptype with
            | none =>
                refine ⟨?_, ?_⟩
                · simp only [phaseA, hp, hpl, hty, if_neg hlen]
                  exact okFrom_nil _ (by simp [procList])
                · intro st1 h1
                  simp only [phaseA, hp, hpl, hty, if_neg hlen] at h1 ⊢
                  cases Option.some.inj h1
                  simp [liveSteps, hp]
            | some mt =>
                cases mt with
                | video =>
                    refine ⟨?_, ?_⟩
                    · simp only [phaseA, hp, hpl, hty, if_neg hlen]
                      refine okFrom_cons _ _ _ (by simp [procList]) ?_
                      exact okFrom_nil _ (by simp [procList, actLive])
                    · intro st1 h1
                      simp only [phaseA, hp, hpl, hty, if_neg hlen] at h1 ⊢
                      cases Option.some.inj h1
                      simp [liveSteps, actLive, procList]
                | image =>
                    by_cases h1l : pl.length = 1
                    · refine ⟨?_, ?_⟩
                      · simp only [phaseA, hp, hpl, hty, if_neg hlen, if_pos h1l]
                        refine okFrom_cons _ _ _ (by simp [procList]) ?_
                        exact okFrom_nil _ (by simp [procList, actLive])
                      · intro st1 h1
                        simp only [phaseA, hp, hpl, hty, if_neg hlen, if_pos h1l] at h1 ⊢
                        cases Option.some.inj h1
                        simp [liveSteps, actLive, procList]
                    · cases hdur : getDuration (pl.getD st.current_index dummyItem) with
                      | none =>
                          refine ⟨?_, ?_⟩
                          · simp only [phaseA, hp, hpl, hty, if_neg hlen, if_neg h1l, hdur]
                            refine okFrom_cons _ _ _ (by simp [procList]) ?_
                            exact okFrom_nil _ (by simp [procList, actLive])
                          · intro st1 h1
                            simp only [phaseA, hp, hpl, hty, if_neg hlen, if_neg h1l,
                              hdur] at h1
                            exact Option.noConfusion h1
                      | some d =>
                          refine ⟨?_, ?_⟩
                          · simp only [phaseA, hp, hpl, hty, if_neg hlen, if_neg h1l, hdur]
                            refine okFrom_cons _ _ _ (by simp [procList]) ?_
                            refine okFrom_cons _ _ _ (by simp [procList, actLive]) ?_
                            simpa [procList, actLive] using
                              okFrom_stopSeq env.gracefulA st.nextPid
                          · intro st1 h1
                            simp only [phaseA, hp, hpl, hty, if_neg hlen, if_neg h1l,
                              hdur] at h1 ⊢
                            cases Option.some.inj h1
                            simp only [liveSteps, List.foldl_cons]
                            have := liveSteps_stopSeq env.gracefulA st.nextPid
                            simp only [liveSteps] at this
                            simp [procList, actLive, this]

/-- Stopping whatever the process slot holds empties the live set and keeps
the at-most-one invariant throughout. -/
theorem stop_block_ok (g : Bool) (o : Option Nat) :
    OkFrom (procList o) (stopSeq g o) ∧ liveSteps (procList o) (stopSeq g o) = [] := by
  cases o with
  | none =>
      exact ⟨okFrom_nil _ (by simp [procList]), by simp [stopSeq, liveSteps, procList]⟩
  | some p =>
      exact ⟨by simpa [procList] using okFrom_stopSeq g p,
        by simpa [procList] using liveSteps_stopSeq g p⟩

/-- Phase B preserves the single-renderer discipline: either it is quiet, or
it runs the full stop sequence on the current handle before clearing the
slot. -/
theorem phaseB_ok (dir : String) (env : LoopEnv) (st : CtrlState) :
    OkFrom (procList st.current_process) (phaseB dir env st).2 ∧
    liveSteps (procList st.current_process) (phaseB dir env st).2 =
      procList (phaseB dir env st).1.current_process := by
  cases hchk : env.checkNow with
  | false =>
      constructor
      · simp only [phaseB, hchk, Bool.not_false, if_true]
        exact okFrom_nil _ (procList_len _)
      · simp [phaseB, hchk, liveSteps]
  | true =>
      have hsb := stop_block_ok env.gracefulB st.current_process
      cases hpf : env.playlistFetched with
      | none =>
          by_cases hnm : env.newMedia.length = 0
          · constructor
            · simp only [phaseB, hchk, hpf, hnm]
              exact okFrom_nil _ (procList_len _)
            · simp [phaseB, hchk, hpf, hnm, liveSteps]
          · have hgoal : (phaseB dir env st).2 = stopSeq env.gracefulB st.current_process := by
              simp [phaseB, hchk, hpf, hnm]
            have hgoal2 : (phaseB dir env st).1.current_process = none := by
              simp [phaseB, hchk, hpf, hnm]
            refine ⟨by rw [hgoal]; exact hsb.1, ?_⟩
            rw [hgoal, hgoal2, hsb.2]
            simp [procList]
      | some m =>
          by_cases hnm : env.newMedia.length = 0
          · have hgoal : (phaseB dir env st).2 = stopSeq env.gracefulB st.current_process := by
              simp [phaseB, hchk, hpf, hnm]
            have hgoal2 : (phaseB dir env st).1.current_process = none := by
              simp [phaseB, hchk, hpf, hnm]
            refine ⟨by rw [hgoal]; exact hsb.1, ?_⟩
            rw [hgoal, hgoal2, hsb.2]
            simp [procList]
          · have hgoal : (phaseB dir env st).2 = stopSeq env.gracefulB st.current_process := by
              simp [phaseB, hchk, hpf, hnm]
            have hgoal2 : (phaseB dir env st).1.current_process = none := by
              simp [phaseB, hchk, hpf, hnm]
            refine ⟨by rw [hgoal]; exact hsb.1, ?_⟩
            rw [hgoal, hgoal2, hsb.2]
            simp [procList]

/-- Phase C preserves the single-renderer discipline: at most it observes
the video process's own exit and clears the slot. -/
theorem phaseC_ok (env : LoopEnv) (st : CtrlState) :
    OkFrom (procList st.current_process) (phaseC env st).2 ∧
    liveSteps (procList st.current_process) (phaseC env st).2 =
      procList (phaseC env st).1.current_process := by
  cases hp : st.current_process with
  | none =>
      cases hpl : st.current_playlist with
      | none =>
          constructor
          · simp only [phaseC, hp, hpl]
            exact okFrom_nil _ (by simp [procList])
          · simp [phaseC, hp, hpl, liveSteps]
      | some pl =>
          constructor
          · simp only [phaseC, hp, hpl]
            exact okFrom_nil _ (by simp [procList])
          · simp [phaseC, hp, hpl, liveSteps]
  | some p =>
      cases hpl : st.current_playlist with
      | none =>
          constructor
          · simp only [phaseC, hp, hpl]
            exact okFrom_nil _ (by simp [procList])
          · simp [phaseC, hp, hpl, liveSteps, hp]
      | some pl =>
          by_cases hty : (pl.getD st.current_index dummyItem).ptype = some MType.video
          · by_cases hlen0 : pl.length = 0
            · constructor
              · simp only [phaseC, hp, hpl]
                rw [if_neg (fun hand => hand.1 hlen0)]
                exact okFrom_nil _ (by simp [procList])
              · simp only [phaseC, hp, hpl]
                rw [if_neg (fun hand => hand.1 hlen0)]
                simp [liveSteps, hp]
            · cases hrun : env.videoStillRunning with
              | true =>
                  constructor
                  · simp only [phaseC, hp, hpl]
                    rw [if_pos ⟨hlen0, hty⟩, hrun, if_pos rfl]
                    exact okFrom_nil _ (by simp [procList])
                  · simp only [phaseC, hp, hpl]
                    rw [if_pos ⟨hlen0, hty⟩, hrun, if_pos rfl]
                    simp [liveSteps, hp]
              | false =>
                  constructor
                  · simp only [phaseC, hp, hpl]
                    rw [if_pos ⟨hlen0, hty⟩, hrun, if_neg (by simp)]
                    refine okFrom_cons _ _ _ (by simp [procList]) ?_
                    exact okFrom_nil _ (by simp [procList, actLive, List.filter])
                  · simp only [phaseC, hp, hpl]
                    rw [if_pos ⟨hlen0, hty⟩, hrun, if_neg (by simp)]
                    simp [liveSteps, actLive, procList, List.filter]
          · constructor
            · simp only [phaseC, hp, hpl]
              rw [if_neg (fun hand => hty hand.2)]
              exact okFrom_nil _ (by simp [procList])
            · simp only [phaseC, hp, hpl]
              rw [if_neg (fun hand => hty hand.2)]
              simp [liveSteps, hp]

/-- Phase D never touches the process slot. -/
theorem phaseD_proc (st : CtrlState) : (phaseD st).current_process = st.current_process := by
  simp only [phaseD]
  split <;> rfl

theorem liveSteps_append (live : List Nat) (a b : List PAct) :
    liveSteps live (a ++ b) = liveSteps (liveSteps live a) b := by
  simp [liveSteps, List.foldl_append]

/-- One loop pass preserves the single-renderer discipline, and on a normal
return the live set matches the resulting process slot. -/
theorem iterate_ok (dir : String) (env : LoopEnv) (st : CtrlState) :
    OkFrom (procList st.current_process) (iterate dir env st).2 ∧
    (∀ st1, (iterate dir env st).1 = some st1 →
      liveSteps (procList st.current_process) (iterate dir env st).2 =
        procList st1.current_process) := by
  rcases phaseA_ok env st with ⟨hAok, hAlive⟩
  rcases hA : phaseA env st with ⟨ra, actsA⟩
  rw [hA] at hAok hAlive
  cases ra with
  | none =>
      constructor
      · have h2 : (iterate dir env st).2 = actsA := by simp [iterate, hA]
        rw [h2]
        simpa using hAok
      · intro st1 h1
        have h0 : (iterate dir env st).1 = none := by simp [iterate, hA]
        rw [h0] at h1
        exact Option.noConfusion h1
  | some stA =>
      have hlive1 : liveSteps (procList st.current_process) actsA =
          procList stA.current_process := by simpa using hAlive stA (by simp)
      rcases phaseB_ok dir env stA with ⟨hBok, hBlive⟩
      rcases phaseC_ok env (phaseB dir env stA).1 with ⟨hCok, hClive⟩
      have hit2 : (iterate dir env st).2 =
          actsA ++ ((phaseB dir env stA).2 ++ (phaseC env (phaseB dir env stA).1).2) := by
        simp [iterate, hA]
      have hit1 : (iterate dir env st).1 =
          some (phaseD (phaseC env (phaseB dir env stA).1).1) := by
        simp [iterate, hA]
      constructor
      · rw [hit2]
        refine okFrom_append _ _ _ (by simpa using hAok) ?_
        rw [hlive1]
        refine okFrom_append _ _ _ hBok ?_
        rw [hBlive]
        exact hCok
      · intro st1 h1
        rw [hit1] at h1
        cases Option.some.inj h1
        rw [hit2, liveSteps_append, liveSteps_append, hlive1, hBlive, hClive,
          phaseD_proc]

/-- Every run of the main loop preserves the single-renderer discipline. -/
theorem runLoop_ok (dir : String) : ∀ (envs : List LoopEnv) (st : CtrlState),
    OkFrom (procList st.current_process) (runLoop dir envs st).2
  | [], st => by
      have h2 : (runLoop dir [] st).2 = [] := by simp [runLoop]
      rw [h2]
      exact okFrom_nil _ (procList_len _)
  | e :: es, st => by
      rcases iterate_ok dir e st with ⟨hok, hlive⟩
      rcases hA : iterate dir e st with ⟨r, acts⟩
      rw [hA] at hok hlive
      cases r with
      | none =>
          have h2 : (runLoop dir (e :: es) st).2 = acts := by simp [runLoop, hA]
          rw [h2]
          simpa using hok
      | some st1 =>
          have h2 : (runLoop dir (e :: es) st).2 = acts ++ (runLoop dir es st1).2 := by
            simp [runLoop, hA]
          rw [h2]
          refine okFrom_append _ _ _ (by simpa using hok) ?_
          have h3 := hlive st1 (by simp)
          simp only at h3
          rw [h3]
          exact runLoop_ok dir es st1

/-! ### Claim C1 — at most one live renderer -/

/-- Claim C1: starting from a state with no renderer running (as `main`
does), every prefix of the subprocess action trace of any main-loop run —
over arbitrary sequences of timed checks, playlist and media deliveries,
image dwells, video exits and stop-wait outcomes — has at most one live
rendering process.  In particular, on every playlist replacement the old
process's stop sequence (terminate, bounded wait, force-kill on timeout)
removes it from the live set before any later start adds a new one. -/
theorem claim_C1_single_renderer (dir : String) (envs : List LoopEnv) (st : CtrlState)
    (hstart : st.current_process = none) :
    OkFrom [] (runLoop dir envs st).2 := by
  have h := runLoop_ok dir envs st
  rw [hstart] at h
  simpa [procList] using h

/-- Witness for claim C1: a concrete run — a video playing, then a sync pass
replacing the playlist with a force-killed stop, then the new start. -/
theorem claim_C1_single_renderer_witness :
    OkFrom [] (runLoop "/m/"
      [⟨false, none, [], true, true, true, fun _ => false⟩,
       ⟨true, some [⟨"x.jpg", some MType.image, some (some 3)⟩], [], true, false, true,
        fun _ => false⟩,
       ⟨false, none, [], true, true, true, fun _ => false⟩]
      ⟨["x.jpg"], none, some [⟨some "/m/x.jpg", some MType.video, some 0, some none⟩],
       [⟨"/m/x.jpg", some MType.video, none⟩], 0, none, 0⟩).2 :=
  claim_C1_single_renderer "/m/"
    [⟨false, none, [], true, true, true, fun _ => false⟩,
     ⟨true, some [⟨"x.jpg", some MType.image, some (some 3)⟩], [], true, false, true,
      fun _ => false⟩,
     ⟨false, none, [], true, true, true, fun _ => false⟩]
    ⟨["x.jpg"], none, some [⟨some "/m/x.jpg", some MType.video, some 0, some none⟩],
     [⟨"/m/x.jpg", some MType.video, none⟩], 0, none, 0⟩ rfl

end VideoStick
